import Mathlib

/-!
# Verification of the voro-js Voronoi wrapper

A shallow embedding of the voro-js repository (`src/voro_wrapper.cpp` and its
TypeScript boundary) in Lean 4.  The wrapper code (`WallJS`, `VoronoiContext3D`,
`VoronoiCell3D`, `extract_cell`, `relaxVoronoi`, `addPoints`, `getAllCells`,
`getCellById`, `clear`) is translated directly from the C++ source.  The voro++
kernel that the wrapper delegates to (the container, the incremental half-space
clipping of a convex cell, volume and centroid computation) is not part of the
repository checkout; those definitions are modelled from the specification
(sections 2, 4.2, 4.3, 4.4 and 4.6 of the spec) and are marked
`Modelled from the spec:` in their doc comments.

Real numbers (C++ `double`) are modelled by `ℚ`; floating-point rounding is
outside the model.  Containers are modelled non-periodic (the default; no claim
exercises periodic images).
-/

namespace Voro

/-- A 3d point (`struct Point3D` of voro_wrapper.cpp), doubles modelled by `ℚ`. -/
structure Point3D where
  x : ℚ
  y : ℚ
  z : ℚ
deriving DecidableEq, Repr, Inhabited

/-- Pointwise addition of 3d points/vectors. -/
def Point3D.add (a b : Point3D) : Point3D := ⟨a.x + b.x, a.y + b.y, a.z + b.z⟩

/-- Pointwise subtraction of 3d points/vectors. -/
def Point3D.sub (a b : Point3D) : Point3D := ⟨a.x - b.x, a.y - b.y, a.z - b.z⟩

/-- Scalar multiple of a 3d vector. -/
def Point3D.smul (q : ℚ) (a : Point3D) : Point3D := ⟨q * a.x, q * a.y, q * a.z⟩

/-- Euclidean inner product. -/
def Point3D.dot (a b : Point3D) : ℚ := a.x * b.x + a.y * b.y + a.z * b.z

/-- Cross product. -/
def Point3D.cross (a b : Point3D) : Point3D :=
  ⟨a.y * b.z - a.z * b.y, a.z * b.x - a.x * b.z, a.x * b.y - a.y * b.x⟩

/-- The origin point, also the value of a value-initialized C++ `Point3D`. -/
def Point3D.zero : Point3D := ⟨0, 0, 0⟩

/-- Modelled from the spec: the state of a voro++ `voronoicell_neighbor`, whose
code is not in the repository checkout.  Spec section 4.2 describes it as a
convex polyhedron held as vertices plus face loops; section 4.5 requires per-face
provenance ids ("the index of the neighboring particle (or wall id) that created
it").  Vertex coordinates are cell-local (relative to the particle position). -/
structure VCell where
  verts : List Point3D
  faces : List (List Nat)
  faceIds : List Int
deriving DecidableEq, Repr, Inhabited

/-- The empty cell: what remains after a cut removed the whole volume. -/
def VCell.empty : VCell := ⟨[], [], []⟩

/-- Signed side of a vertex with respect to the clipping half-space
`{v | n ⬝ v ≤ off}`: nonpositive means the vertex is kept ("ties treated as
inside", spec section 4.2). -/
def planeSide (n : Point3D) (off : ℚ) (v : Point3D) : ℚ := Point3D.dot n v - off

/-- Intersection of the segment `a b` with the plane `n ⬝ v = off`
(used for edges whose endpoints straddle the plane). -/
def planeInter (n : Point3D) (off : ℚ) (a b : Point3D) : Point3D :=
  let sa := planeSide n off a
  let sb := planeSide n off b
  Point3D.add a (Point3D.smul (sa / (sa - sb)) (Point3D.sub b a))

/-- Consecutive (cyclic) pairs of a loop: `(l[j], l[(j+1) % l.length])` for each
`j < l.length`, exactly the pairs walked by the edge-extraction loop of
`extract_cell` and by the clipping of one face loop. -/
def cyclicPairs {α : Type} (l : List α) : List (α × α) := l.zip (l.rotate 1)

/-- Clip one face loop against the half-space: vertices with nonpositive side
survive, and an intersection point is spliced in for every straddling edge
(Sutherland-Hodgman step; modelled from spec section 4.2). -/
def clipLoop (n : Point3D) (off : ℚ) (ps : List Point3D) : List Point3D :=
  (cyclicPairs ps).foldr
    (fun ab acc =>
      let sa := planeSide n off ab.1
      let sb := planeSide n off ab.2
      let kept := if sa ≤ 0 then [ab.1] else []
      let crossed := if (sa ≤ 0 ∧ 0 < sb) ∨ (sb ≤ 0 ∧ 0 < sa) then
          [planeInter n off ab.1 ab.2] else []
      kept ++ crossed ++ acc) []

/-- The directed boundary edge the cut contributes on one face loop: the point
where the loop re-enters the kept half-space and the point where it leaves it.
A convex loop crossing the plane has exactly one of each. -/
def loopCrossing (n : Point3D) (off : ℚ) (ps : List Point3D) :
    Option (Point3D × Point3D) :=
  let entry := (cyclicPairs ps).findSome? (fun ab =>
    if 0 < planeSide n off ab.1 ∧ planeSide n off ab.2 ≤ 0 then
      some (planeInter n off ab.1 ab.2) else none)
  let exit := (cyclicPairs ps).findSome? (fun ab =>
    if planeSide n off ab.1 ≤ 0 ∧ 0 < planeSide n off ab.2 then
      some (planeInter n off ab.1 ab.2) else none)
  match entry, exit with
  | some e, some x => some (e, x)
  | _, _ => none

/-- Chains the directed boundary edges of the cut into a vertex loop: each edge
contributes its source point, then the walk continues from its target. -/
def chainEdges : Nat → List (Point3D × Point3D) → Point3D → List Point3D
  | 0, _, _ => []
  | fuel + 1, es, cur =>
    match es.find? (fun pr => pr.1 = cur) with
    | none => []
    | some pr => cur :: chainEdges fuel (es.erase pr) pr.2

/-- Positions of a face loop. -/
def facePoints (verts : List Point3D) (f : List Nat) : List Point3D :=
  f.map (fun i => verts.getD i Point3D.zero)

/-- Index of a point in the new vertex table. -/
def idxOf (verts : List Point3D) (p : Point3D) : Nat := verts.indexOf p

/-- Modelled from the spec: the general (mixed) case of the half-space cut, for
a plane that keeps some vertices and deletes others.  Each surviving face loop is
clipped, loops degenerating below three vertices are dropped (keeping their
provenance ids aligned), and the intersection points form one new cut face
carrying the id of the cutting plane (spec section 4.2: "a new boundary edge
shared by a single new face").  The order of the cut-face loop follows discovery
order; no claim below depends on it. -/
def clipCell (c : VCell) (n : Point3D) (off : ℚ) (fid : Int) : VCell :=
  let clipped := c.faces.map (fun f => clipLoop n off (facePoints c.verts f))
  let keptPairs := (clipped.zip (c.faceIds ++ List.replicate clipped.length 0)).filter
    (fun pr => decide (3 ≤ pr.1.length))
  let crossings := c.faces.filterMap (fun f => loopCrossing n off (facePoints c.verts f))
  let cutFace := match crossings with
    | [] => []
    | pr :: _ => chainEdges crossings.length crossings pr.1
  let allFaces := keptPairs.map Prod.fst ++ (if 3 ≤ cutFace.length then [cutFace] else [])
  let allIds := keptPairs.map Prod.snd ++ (if 3 ≤ cutFace.length then [fid] else [])
  let table := (allFaces.foldr (fun f acc => f ++ acc) []).dedup
  { verts := table
    faces := allFaces.map (fun f => f.map (idxOf table))
    faceIds := allIds }

/-- Modelled from the spec: the incremental half-space cut `plane` of a voro++
`voronoicell` (spec section 4.2).  Keeps the half-space `{v | n ⬝ v ≤ off}`
(ties inside).  "If every vertex lies inside, the call is a no-op and reports
that no cut occurred; if every vertex lies outside, the cell is reduced to empty
and the operation reports that the cut removed the cell entirely" — the returned
Boolean is `false` exactly when the cut removed the cell entirely (the return
convention documented at `VoronoiCell3D::cutPlane` in voro_wrapper.cpp). -/
def VCell.plane (c : VCell) (n : Point3D) (off : ℚ) (fid : Int) : Bool × VCell :=
  if c.verts.all (fun v => planeSide n off v ≤ 0) then (true, c)
  else if c.verts.all (fun v => 0 < planeSide n off v) then (false, VCell.empty)
  else (true, clipCell c n off fid)

/-- Modelled from the spec: `voronoicell::init` — the cell as a rectangular box
(spec section 4.2: "initially a box").  Eight vertices, six outward-oriented
quadrilateral face loops; the six box faces carry the voro++ domain-boundary
ids −1..−6 (order: −x, +x, −y, +y, −z, +z). -/
def initBoxCell (x0 x1 y0 y1 z0 z1 : ℚ) : VCell :=
  { verts := [⟨x0, y0, z0⟩, ⟨x1, y0, z0⟩, ⟨x0, y1, z0⟩, ⟨x1, y1, z0⟩,
              ⟨x0, y0, z1⟩, ⟨x1, y0, z1⟩, ⟨x0, y1, z1⟩, ⟨x1, y1, z1⟩]
    faces := [[0, 4, 6, 2], [1, 3, 7, 5], [0, 1, 5, 4], [2, 6, 7, 3],
              [0, 2, 3, 1], [4, 5, 7, 6]]
    faceIds := [-1, -2, -3, -4, -5, -6] }

/-- Fan triangulation of one face loop from its first vertex, as position
triples. -/
def faceTris (verts : List Point3D) (f : List Nat) : List (Point3D × Point3D × Point3D) :=
  match facePoints verts f with
  | [] => []
  | v0 :: rest => (rest.zip rest.tail).map (fun pr => (v0, pr.1, pr.2))

/-- Six times the signed volume of the tetrahedron spanned by the origin and a
triangle. -/
def triDet (t : Point3D × Point3D × Point3D) : ℚ :=
  Point3D.dot t.1 (Point3D.cross t.2.1 t.2.2)

/-- All fan triangles of a cell. -/
def cellTris (c : VCell) : List (Point3D × Point3D × Point3D) :=
  c.faces.foldr (fun f acc => faceTris c.verts f ++ acc) []

/-- Modelled from the spec: `voronoicell::volume`, the divergence-theorem volume
of the cell (fan tetrahedra from the cell origin). -/
def cellVolume (c : VCell) : ℚ :=
  ((cellTris c).map triDet).sum / 6

/-- Modelled from the spec: `voronoicell::centroid` — "volume-weighted average
of the boundary, standard divergence-theorem centroid formula" (spec section
4.6), in cell-local coordinates.  A cell of zero volume yields the origin. -/
def cellCentroid (c : VCell) : Point3D :=
  let v6 := ((cellTris c).map triDet).sum
  if v6 = 0 then Point3D.zero
  else
    let s := (cellTris c).foldr
      (fun t acc => Point3D.add (Point3D.smul (triDet t) (Point3D.add t.1 (Point3D.add t.2.1 t.2.2))) acc)
      Point3D.zero
    Point3D.smul (1 / (4 * v6)) s

/-! ## The JavaScript wall boundary (`WallJS`, voro_wrapper.cpp lines 46-108) -/

/-- The value returned by a JavaScript wall's `cut_cell` callback, as seen by
`WallJS::cut_cell_internal` through `emscripten::val`: `undefined`, `null`, or
an object whose fields may each be absent (`none`).  An absent `cut` field reads
as `false` under `as<bool>`; an absent numeric field reads as NaN under
`as<double>`. -/
inductive JSVal where
  | undef : JSVal
  | null : JSVal
  | obj (cut : Option Bool) (nx ny nz d : Option ℚ) : JSVal
deriving DecidableEq, Repr

/-- The guard of voro_wrapper.cpp line 95:
`!plane_params.isUndefined() && !plane_params.isNull() && plane_params["cut"].as<bool>()`.
`true` exactly when `WallJS::cut_cell_internal` goes on to call `c.plane`. -/
def cutRequested : JSVal → Bool
  | .undef => false
  | .null => false
  | .obj cut _ _ _ _ => cut.getD false

/-- The `c.plane(nx, ny, nz, d)` call that `WallJS::cut_cell_internal` makes,
or `none` when the guard declines.  A `none` field inside models a missing JS
property, whose `as<double>` conversion is NaN. -/
def wallJSCutAction : JSVal → Option (Option ℚ × Option ℚ × Option ℚ × Option ℚ)
  | .undef => none
  | .null => none
  | .obj cut nx ny nz d => if cut.getD false then some (nx, ny, nz, d) else none

/-- Applies the plane call recorded by `wallJSCutAction` to the cell.  The
4-argument voro++ `plane(x,y,z,rsq)` keeps the half-space `n ⬝ v ≤ rsq / 2`
(spec section 4.4 gives the same convention for the bisector
`plane(Q−P, |Q−P|²/2)`); the cut face of a wall plane carries id 0.  The branch
with a missing numeric field corresponds to a NaN plane parameter: its geometric
effect is outside the rational model and no theorem below relies on it. -/
def applyCutAction (c : VCell) :
    Option (Option ℚ × Option ℚ × Option ℚ × Option ℚ) → VCell
  | none => c
  | some (some a, some b, some g, some d) => (VCell.plane c ⟨a, b, g⟩ (d / 2) 0).2
  | some _ => c

/-- The method `WallJS::cut_cell_internal` (voro_wrapper.cpp lines 88-107), as the pair of
the Boolean it returns and the cell it leaves behind.  The callback response is
given as the already-evaluated `JSVal`. -/
def cut_cell_internal (resp : JSVal) (c : VCell) : Bool × VCell :=
  match wallJSCutAction resp with
  | none => (false, c)
  | some ps => (true, applyCutAction c (some ps))

/-! ## Walls and the container -/

/-- A wall registered in the container: the built-in plane wall
(`addWallPlane` / voro++ `wall_plane`, which "always proposes its fixed
half-space", spec section 4.3) or a custom JavaScript wall (`addWallJS`), held
as its `cut_cell` callback.  The sphere, cylinder and cone built-ins compute
their tangent planes with square roots and are not exercised by any claim, so
they are omitted from the model. -/
inductive Wall where
  | wplane (n : Point3D) (d : ℚ) (id : Int) : Wall
  | wjs (cutF : Point3D → JSVal) : Wall

/-- Modelled from the spec: applying one registered wall to the cell of the
particle at position `p` (spec section 4.3).  The plane wall cuts by its fixed
half-space `n ⬝ v ≤ d`, re-expressed in cell-local coordinates; the custom wall
cuts by whatever `WallJS::cut_cell_internal` does with the callback's answer. -/
def wallCut (w : Wall) (p : Point3D) (c : VCell) : VCell :=
  match w with
  | .wplane n d wid => (VCell.plane c n (d - Point3D.dot n p) wid).2
  | .wjs f => (cut_cell_internal (f p) c).2

/-- The state of a `VoronoiContext3D` (voro_wrapper.cpp lines 112-328): the
domain bounds, the inserted particles (id, position) in insertion order, and
the registered walls in registration order.  The spatial grid is a query
accelerator with no observable state of its own and is left implicit;
periodicity flags are fixed to the non-periodic default. -/
structure VoronoiContext3D where
  x0 : ℚ
  x1 : ℚ
  y0 : ℚ
  y1 : ℚ
  z0 : ℚ
  z1 : ℚ
  particles : List (Int × Point3D)
  walls : List Wall

/-- Fresh container, as built by the `VoronoiContext3D` constructor. -/
def mkContext (x0 x1 y0 y1 z0 z1 : ℚ) : VoronoiContext3D :=
  ⟨x0, x1, y0, y1, z0, z1, [], []⟩

/-- The method `VoronoiContext3D::addPoint`: `con.put(id, x, y, z)`.  Modelled from the
spec: insertion is accepted for any position (spec section 4.1: containers "do
not reject out-of-box points"). -/
def addPoint (ctx : VoronoiContext3D) (id : Int) (x y z : ℚ) : VoronoiContext3D :=
  { ctx with particles := ctx.particles ++ [(id, ⟨x, y, z⟩)] }

/-- The batch of particles inserted by the `addPoints` loop
(`con.put(ids[i], x_coords[i], y_coords[i], z_coords[i])` for each `i`). -/
def zipPoints : List Int → List ℚ → List ℚ → List ℚ → List (Int × Point3D)
  | i :: is, a :: as, b :: bs, c :: cs => (i, ⟨a, b, c⟩) :: zipPoints is as bs cs
  | _, _, _, _ => []

/-- The method `VoronoiContext3D::addPoints` (voro_wrapper.cpp lines 128-135): throws — and
inserts nothing — when the id and coordinate sequences disagree in length,
otherwise inserts the whole batch. -/
def addPoints (ctx : VoronoiContext3D) (ids : List Int) (xs ys zs : List ℚ) :
    Except String VoronoiContext3D :=
  if ids.length ≠ xs.length ∨ ids.length ≠ ys.length ∨ ids.length ≠ zs.length then
    .error "addPoints failed because of mismatch in ids and xyz_coords sizes"
  else
    .ok { ctx with particles := ctx.particles ++ zipPoints ids xs ys zs }

/-- The method `VoronoiContext3D::addWallPlane`: registers a plane wall (default id −99). -/
def addWallPlane (ctx : VoronoiContext3D) (x y z d : ℚ) (id : Int := -99) :
    VoronoiContext3D :=
  { ctx with walls := ctx.walls ++ [Wall.wplane ⟨x, y, z⟩ d id] }

/-- The method `VoronoiContext3D::addWallJS`: registers a custom JavaScript wall. -/
def addWallJS (ctx : VoronoiContext3D) (cutF : Point3D → JSVal) : VoronoiContext3D :=
  { ctx with walls := ctx.walls ++ [Wall.wjs cutF] }

/-- The method `VoronoiContext3D::clear`: `con.clear()` removes the particles; the
registered walls are untouched (spec section 6). -/
def clear (ctx : VoronoiContext3D) : VoronoiContext3D :=
  { ctx with particles := [] }

/-- The particle record at loop index `i` (out-of-range reads never occur on
the indices the loops below produce). -/
def particleAt (ctx : VoronoiContext3D) (i : Nat) : Int × Point3D :=
  ctx.particles.getD i (0, Point3D.zero)

/-- Modelled from the spec: `con.compute_cell` for the particle at loop index
`i` (spec section 4.4).  The cell starts as the domain box recentred at the
particle, every registered wall is applied in registration order, and "if any
wall empties the cell, p yields no cell"; otherwise the perpendicular bisector
`plane(Q−P, |Q−P|²/2)` of every other particle is applied (the grid's
expanding-shell pruning only skips planes that cannot cut and is not modelled
separately). -/
def computeCellAt (ctx : VoronoiContext3D) (i : Nat) : Option VCell :=
  let pr := particleAt ctx i
  let p := pr.2
  let c0 := initBoxCell (ctx.x0 - p.x) (ctx.x1 - p.x) (ctx.y0 - p.y)
      (ctx.y1 - p.y) (ctx.z0 - p.z) (ctx.z1 - p.z)
  let c1 := ctx.walls.foldl (fun c w => wallCut w p c) c0
  if c1.verts.isEmpty then none
  else
    some ((ctx.particles.eraseIdx i).foldl
      (fun c q =>
        let n := Point3D.sub q.2 p
        (VCell.plane c n (Point3D.dot n n / 2) q.1).2)
      c1)

/-! ## Geometry extraction (`extract_cell`, voro_wrapper.cpp lines 272-327) -/

/-- A cell as handed back to JavaScript (`struct VoronoiCell`).  An edge is an
unordered index pair held as its `(min, max)` canonical form (the C++ code uses
a `std::vector<int>` of length two). -/
structure VoronoiCell where
  id : Int
  position : Point3D
  volume : ℚ
  vertices : List Point3D
  edges : List (Nat × Nat)
  faces : List (List Nat)
  neighbors : List Int
deriving DecidableEq, Repr

/-- The default-constructed `VoronoiCell cell;` that `getCellById` returns when
no cell was computed: all members read back as zero / empty through the
bindings (the repository test asserts `id = 0` and `volume = 0` for a missed
lookup). -/
def VoronoiCell.empty : VoronoiCell :=
  { id := 0, position := Point3D.zero, volume := 0,
    vertices := [], edges := [], faces := [], neighbors := [] }

/-- The canonical form of one edge: voro_wrapper.cpp lines 313-317,
`if (v1 > v2) std::swap(v1, v2)`. -/
def canonPair (a b : Nat) : Nat × Nat := if a > b then (b, a) else (a, b)

/-- Lexicographic comparison of edges, the ordering of the C++
`std::set<std::vector<int>>` that collects them. -/
def pairLt (p q : Nat × Nat) : Bool := p.1 < q.1 || (p.1 = q.1 && p.2 < q.2)

/-- Ordered insertion into the sorted duplicate-free edge list, the effect of
`unique_edges.insert`. -/
def insertEdge (e : Nat × Nat) : List (Nat × Nat) → List (Nat × Nat)
  | [] => [e]
  | x :: xs => if pairLt e x then e :: x :: xs
      else if e = x then x :: xs
      else x :: insertEdge e xs

/-- The edge-extraction loop of `extract_cell` (voro_wrapper.cpp lines
307-322): every face's consecutive vertex-index pairs, canonicalized, inserted
into a set; the set is read back in its sorted order. -/
def extractEdges (faces : List (List Nat)) : List (Nat × Nat) :=
  faces.foldl
    (fun s f => (cyclicPairs f).foldl (fun s2 pr => insertEdge (canonPair pr.1 pr.2) s2) s)
    []

/-- The method `extract_cell` (voro_wrapper.cpp lines 272-327) for the particle at loop
index `i`: id and position from the loop, volume, absolute vertex positions,
the face loops, the deduplicated edge set and the per-face neighbor ids from
the cell.  The voro++ flat `face_vertices`/`face_orders` encoding that the C++
loop re-assembles into loops is represented by the structured loops
themselves. -/
def extract_cell (ctx : VoronoiContext3D) (i : Nat) (c : VCell) : VoronoiCell :=
  let pr := particleAt ctx i
  { id := pr.1
    position := pr.2
    volume := cellVolume c
    vertices := c.verts.map (fun v => Point3D.add pr.2 v)
    edges := extractEdges c.faces
    faces := c.faces
    neighbors := c.faceIds }

/-! ## Container queries (voro_wrapper.cpp lines 176-265) -/

/-- The method `VoronoiContext3D::getAllCells`: loop over all particles, keep the cells
that `compute_cell` produced. -/
def getAllCells (ctx : VoronoiContext3D) : List VoronoiCell :=
  (List.range ctx.particles.length).filterMap
    (fun i => (computeCellAt ctx i).map (extract_cell ctx i))

/-- The method `VoronoiContext3D::getCellById`: scan the particles in loop order, return
the extracted cell of the first particle whose id matches and whose cell
computes; fall through to the default-constructed (empty) cell otherwise. -/
def getCellById (ctx : VoronoiContext3D) (id : Int) : VoronoiCell :=
  ((List.range ctx.particles.length).findSome?
    (fun i =>
      if (particleAt ctx i).1 = id then (computeCellAt ctx i).map (extract_cell ctx i)
      else none)).getD VoronoiCell.empty

/-- The element write `relaxed_points[id] = point` of `relaxVoronoi`:
`none` models the out-of-bounds access, which is undefined behavior in C++. -/
def vecSet (arr : List Point3D) (i : Int) (p : Point3D) : Option (List Point3D) :=
  if 0 ≤ i ∧ i.toNat < arr.length then some (arr.set i.toNat p) else none

/-- The loop of `relaxVoronoi` over the remaining particle indices: particles
whose cell computes store the absolute centroid of the cell at index `id` of
the output array. -/
def relaxLoop (ctx : VoronoiContext3D) : List Nat → List Point3D → Option (List Point3D)
  | [], arr => some arr
  | i :: is, arr =>
    match computeCellAt ctx i with
    | none => relaxLoop ctx is arr
    | some c =>
      match vecSet arr (particleAt ctx i).1
          (Point3D.add (particleAt ctx i).2 (cellCentroid c)) with
      | none => none
      | some arr2 => relaxLoop ctx is arr2

/-- The method `VoronoiContext3D::relaxVoronoi` (voro_wrapper.cpp lines 233-259): an array
of `con.total_particles()` value-initialized points, filled at each computed
particle's own id with the centroid of its cell.  `none` models the
out-of-bounds write flagged by the code's own TODO comment. -/
def relaxVoronoi (ctx : VoronoiContext3D) : Option (List Point3D) :=
  relaxLoop ctx (List.range ctx.particles.length)
    (List.replicate ctx.particles.length Point3D.zero)

/-! ## The standalone cell class (`VoronoiCell3D`, voro_wrapper.cpp lines 335-394) -/

/-- The method `VoronoiCell3D::initBox`: initializes the standalone cell as a box. -/
def VoronoiCell3D.initBox (xmin xmax ymin ymax zmin zmax : ℚ) : VCell :=
  initBoxCell xmin xmax ymin ymax zmin zmax

/-- The method `VoronoiCell3D::cutPlane` — `cell.plane(x, y, z)`, the perpendicular
bisector of the particle at `(x,y,z)` oriented to keep the origin's side
(spec section 4.4: `plane(Q−P, |Q−P|²/2)`); returns the Boolean the C++ method
returns ("False if the plane cut deleted the cell entirely, true otherwise")
together with the resulting cell. -/
def cutPlane (c : VCell) (x y z : ℚ) : Bool × VCell :=
  let n : Point3D := ⟨x, y, z⟩
  VCell.plane c n (Point3D.dot n n / 2) 0

/-- The method `VoronoiCell3D::getCell`: the standalone cell read back at position
`(0,0,0)` (edges, faces and neighbors are not filled in by the C++ method). -/
def VoronoiCell3D.getCell (c : VCell) : VoronoiCell :=
  { id := 0
    position := Point3D.zero
    volume := cellVolume c
    vertices := c.verts
    edges := []
    faces := []
    neighbors := [] }

/-! ## Helper lemmas -/

/-- A declining JavaScript wall (`cut: false`) leaves the cell untouched. -/
lemma wallCut_of_decline {f : Point3D → JSVal}
    (hdecl : ∀ p, ∃ nx ny nz d, f p = JSVal.obj (some false) nx ny nz d)
    (p : Point3D) (c : VCell) : wallCut (Wall.wjs f) p c = c := by
  obtain ⟨nx, ny, nz, d, hf⟩ := hdecl p
  simp [wallCut, cut_cell_internal, wallJSCutAction, hf]

/-- The particle record at an in-range loop index is one of the particles. -/
lemma particleAt_mem {ctx : VoronoiContext3D} {i : Nat}
    (h : i < ctx.particles.length) : particleAt ctx i ∈ ctx.particles := by
  rw [particleAt, List.getD_eq_getElem _ _ h]
  exact List.getElem_mem h

/-- The function `List.findSome?` respects pointwise equal functions. -/
lemma findSome?_congr {α β : Type} {f g : α → Option β} (h : ∀ a, f a = g a) :
    ∀ l : List α, l.findSome? f = l.findSome? g := by
  intro l
  induction l with
  | nil => rfl
  | cons a as ih => rw [List.findSome?_cons, List.findSome?_cons, h a, ih]

/-- With a single always-declining custom wall the per-particle cell
computation agrees with the wall-free one. -/
lemma computeCellAt_decline (ctx : VoronoiContext3D) {f : Point3D → JSVal}
    (hdecl : ∀ p, ∃ nx ny nz d, f p = JSVal.obj (some false) nx ny nz d)
    (i : Nat) :
    computeCellAt { ctx with walls := [Wall.wjs f] } i =
      computeCellAt { ctx with walls := [] } i := by
  simp [computeCellAt, particleAt, List.foldl, wallCut_of_decline hdecl]

/-- C1: registering a custom wall whose `cut_cell` always returns `{cut: false}`
yields exactly the same cells — same ids, volumes, vertices, faces and
neighbors, from `getAllCells` and from `getCellById` — as the same container
with no wall registered at all, for every particle configuration. -/
theorem claim_C1 (ctx : VoronoiContext3D) (f : Point3D → JSVal)
    (hdecl : ∀ p, ∃ nx ny nz d, f p = JSVal.obj (some false) nx ny nz d) :
    getAllCells { ctx with walls := [Wall.wjs f] } =
      getAllCells { ctx with walls := [] } ∧
    ∀ id, getCellById { ctx with walls := [Wall.wjs f] } id =
      getCellById { ctx with walls := [] } id := by
  have hext : ∀ i, extract_cell { ctx with walls := [Wall.wjs f] } i =
      extract_cell { ctx with walls := [] } i := fun i => rfl
  constructor
  · unfold getAllCells
    apply List.filterMap_congr
    intro i _
    rw [computeCellAt_decline ctx hdecl i, hext i]
  · intro id
    have harg : ∀ i : Nat,
        (if (particleAt { ctx with walls := [Wall.wjs f] } i).1 = id then
          (computeCellAt { ctx with walls := [Wall.wjs f] } i).map
            (extract_cell { ctx with walls := [Wall.wjs f] } i) else none) =
        (if (particleAt { ctx with walls := [] } i).1 = id then
          (computeCellAt { ctx with walls := [] } i).map
            (extract_cell { ctx with walls := [] } i) else none) := by
      intro i
      rw [computeCellAt_decline ctx hdecl i, hext i]
      exact rfl
    unfold getCellById
    exact congrArg (fun o => o.getD VoronoiCell.empty) (findSome?_congr harg _)

/-- Witness for C1: the concrete wall answering `{cut: false}` everywhere, on a
two-particle container. -/
theorem claim_C1_witness :
    getAllCells ⟨0, 10, 0, 10, 0, 10, [(0, ⟨1, 1, 1⟩), (1, ⟨9, 9, 9⟩)],
        [Wall.wjs (fun _ => JSVal.obj (some false) none none none none)]⟩ =
      getAllCells ⟨0, 10, 0, 10, 0, 10, [(0, ⟨1, 1, 1⟩), (1, ⟨9, 9, 9⟩)], []⟩ :=
  (claim_C1 ⟨0, 10, 0, 10, 0, 10, [(0, ⟨1, 1, 1⟩), (1, ⟨9, 9, 9⟩)], []⟩
    (fun _ => JSVal.obj (some false) none none none none)
    (fun _ => ⟨none, none, none, none, rfl⟩)).1

/-- C3: for every container state and every id that was never inserted,
`getCellById` returns — without raising — the sentinel cell whose `id` field is
0 and whose `volume` field is 0 (the full default-constructed `VoronoiCell`),
regardless of how many other particles exist in the container. -/
theorem claim_C3 (ctx : VoronoiContext3D) (id : Int)
    (habsent : ∀ pr ∈ ctx.particles, pr.1 ≠ id) :
    getCellById ctx id = VoronoiCell.empty ∧
    (getCellById ctx id).id = 0 ∧ (getCellById ctx id).volume = 0 := by
  have hnone : (List.range ctx.particles.length).findSome?
      (fun i => if (particleAt ctx i).1 = id then
        (computeCellAt ctx i).map (extract_cell ctx i) else none) = none := by
    rw [List.findSome?_eq_none_iff]
    intro i hi
    rw [List.mem_range] at hi
    rw [if_neg (habsent (particleAt ctx i) (particleAt_mem hi))]
  refine ⟨?_, ?_, ?_⟩ <;> rw [getCellById, hnone] <;> rfl

/-- Witness for C3: a container holding particle ids 0 and 1, queried for the
absent id 999, answers the sentinel. -/
theorem claim_C3_witness :
    getCellById ⟨0, 10, 0, 10, 0, 10, [(0, ⟨1, 1, 1⟩), (1, ⟨9, 9, 9⟩)], []⟩ 999 =
      VoronoiCell.empty :=
  (claim_C3 ⟨0, 10, 0, 10, 0, 10, [(0, ⟨1, 1, 1⟩), (1, ⟨9, 9, 9⟩)], []⟩ 999
    (by decide)).1

/-- With equal lengths the batch pairs one inserted particle per id. -/
lemma zipPoints_length (ids : List Int) (xs ys zs : List ℚ)
    (hx : ids.length = xs.length) (hy : ids.length = ys.length)
    (hz : ids.length = zs.length) :
    (zipPoints ids xs ys zs).length = ids.length := by
  induction ids generalizing xs ys zs with
  | nil => rfl
  | cons i is ih =>
    match xs, ys, zs with
    | a :: as, b :: bs, c :: cs =>
      simp only [zipPoints, List.length_cons, Nat.succ_inj]
      exact ih as bs cs (Nat.succ_inj.mp hx) (Nat.succ_inj.mp hy) (Nat.succ_inj.mp hz)

/-- C7: `addPoints` called with id/x/y/z sequences of unequal lengths fails the
whole batch with the descriptive error message and inserts no particle (no
container state is produced, so the caller's container is unchanged); called
with sequences of equal length it appends every particle of the batch. -/
theorem claim_C7 (ctx : VoronoiContext3D) (ids : List Int) (xs ys zs : List ℚ) :
    (¬(ids.length = xs.length ∧ ids.length = ys.length ∧ ids.length = zs.length) →
      addPoints ctx ids xs ys zs =
        .error "addPoints failed because of mismatch in ids and xyz_coords sizes") ∧
    ((ids.length = xs.length ∧ ids.length = ys.length ∧ ids.length = zs.length) →
      addPoints ctx ids xs ys zs =
        .ok { ctx with particles := ctx.particles ++ zipPoints ids xs ys zs } ∧
      (zipPoints ids xs ys zs).length = ids.length) := by
  constructor
  · intro hne
    rw [addPoints, if_pos]
    by_contra hc
    push_neg at hc
    exact hne ⟨hc.1, hc.2.1, hc.2.2⟩
  · rintro ⟨hx, hy, hz⟩
    refine ⟨?_, zipPoints_length ids xs ys zs hx hy hz⟩
    rw [addPoints, if_neg]
    push_neg
    exact ⟨hx, hy, hz⟩

/-- Witness for C7: a mismatched batch (3 ids, 2 x-coordinates) errors, and a
matched batch of two particles inserts both. -/
theorem claim_C7_witness :
    (addPoints ⟨0, 1, 0, 1, 0, 1, [], []⟩ [0, 1, 2] [1, 2] [1, 2, 3] [1, 2, 3] =
      .error "addPoints failed because of mismatch in ids and xyz_coords sizes") ∧
    (addPoints ⟨0, 1, 0, 1, 0, 1, [], []⟩ [0, 1] [1, 2] [3, 4] [5, 6] =
      .ok ⟨0, 1, 0, 1, 0, 1, [(0, ⟨1, 3, 5⟩), (1, ⟨2, 4, 6⟩)], []⟩) :=
  ⟨(claim_C7 ⟨0, 1, 0, 1, 0, 1, [], []⟩ [0, 1, 2] [1, 2] [1, 2, 3] [1, 2, 3]).1
      (by decide),
    ((claim_C7 ⟨0, 1, 0, 1, 0, 1, [], []⟩ [0, 1] [1, 2] [3, 4] [5, 6]).2
      (by decide)).1⟩

/-- Re-insertion of a particle batch, one `addPoint` at a time. -/
def insertAll (ctx : VoronoiContext3D) (ps : List (Int × Point3D)) :
    VoronoiContext3D :=
  ps.foldl (fun c pr => addPoint c pr.1 pr.2.x pr.2.y pr.2.z) ctx

/-- C8: `clear()` removes all particles (and with them the grid contents) while
leaving every registered wall in place; after `clear()` every query returns an
empty result (no cells, the sentinel for any id lookup, an empty relaxation
array), and re-inserting particles yields a container state identical to a
freshly constructed container with the same bounds, the same registered walls
and the same particles — hence cells identical (exactly, in the rational
model). -/
theorem claim_C8 (ctx : VoronoiContext3D) :
    (clear ctx).walls = ctx.walls ∧
    (clear ctx).particles = [] ∧
    getAllCells (clear ctx) = [] ∧
    (∀ id, getCellById (clear ctx) id = VoronoiCell.empty) ∧
    relaxVoronoi (clear ctx) = some [] ∧
    ∀ ps, insertAll (clear ctx) ps =
      insertAll { mkContext ctx.x0 ctx.x1 ctx.y0 ctx.y1 ctx.z0 ctx.z1 with
        walls := ctx.walls } ps ∧
      getAllCells (insertAll (clear ctx) ps) =
        getAllCells (insertAll { mkContext ctx.x0 ctx.x1 ctx.y0 ctx.y1 ctx.z0 ctx.z1 with
          walls := ctx.walls } ps) := by
  refine ⟨rfl, rfl, rfl, fun id => rfl, rfl, fun ps => ⟨rfl, rfl⟩⟩

/-- C5: for every (nonempty) convex cell and every plane, `cutPlane` reports
that the cut removed the cell entirely (returns `false`) exactly when every
vertex lies outside the kept half-space, and when every vertex lies inside it
reports that no cut occurred: it returns `true` and leaves the cell unchanged.
Here the kept half-space of `cutPlane x y z` is `{v | n ⬝ v ≤ |n|²/2}` with
`n = (x,y,z)`, vertices within tolerance of the plane counting as inside. -/
theorem claim_C5 (c : VCell) (x y z : ℚ) (hne : c.verts ≠ []) :
    ((cutPlane c x y z).1 = false ↔
      ∀ v ∈ c.verts, 0 < planeSide ⟨x, y, z⟩ (Point3D.dot ⟨x, y, z⟩ ⟨x, y, z⟩ / 2) v) ∧
    ((∀ v ∈ c.verts, planeSide ⟨x, y, z⟩ (Point3D.dot ⟨x, y, z⟩ ⟨x, y, z⟩ / 2) v ≤ 0) →
      cutPlane c x y z = (true, c)) := by
  unfold cutPlane VCell.plane
  set n : Point3D := ⟨x, y, z⟩
  set off : ℚ := Point3D.dot n n / 2
  by_cases hin : c.verts.all (fun v => planeSide n off v ≤ 0)
  · rw [if_pos hin]
    rw [List.all_eq_true] at hin
    refine ⟨⟨fun h => absurd h (by simp), fun hall => ?_⟩, fun _ => rfl⟩
    exfalso
    obtain ⟨v0, hv0⟩ := List.exists_mem_of_ne_nil c.verts hne
    have h1 := hall v0 hv0
    have h2 := of_decide_eq_true (hin v0 hv0)
    linarith
  · rw [if_neg hin]
    by_cases hout : c.verts.all (fun v => decide (0 < planeSide n off v))
    · rw [if_pos hout]
      rw [List.all_eq_true] at hout
      refine ⟨⟨fun _ v hv => of_decide_eq_true (hout v hv), fun _ => rfl⟩, fun hall => ?_⟩
      exfalso
      apply hin
      rw [List.all_eq_true]
      intro v hv
      exact decide_eq_true (hall v hv)
    · rw [if_neg hout]
      refine ⟨⟨fun h => absurd h (by simp), fun hall => ?_⟩, fun hall => ?_⟩
      · exfalso
        apply hout
        rw [List.all_eq_true]
        intro v hv
        exact decide_eq_true (hall v hv)
      · exfalso
        apply hin
        rw [List.all_eq_true]
        intro v hv
        exact decide_eq_true (hall v hv)

/-- Witness for C5: the unit box centred at the origin, cut by the bisector of
the particle at `(3,0,0)` — every vertex inside, so the call is a no-op — and
its instance of the removed-entirely criterion. -/
theorem claim_C5_witness :
    (cutPlane (VoronoiCell3D.initBox (-1/2) (1/2) (-1/2) (1/2) (-1/2) (1/2)) 3 0 0
        = (true, VoronoiCell3D.initBox (-1/2) (1/2) (-1/2) (1/2) (-1/2) (1/2))) ∧
    ((cutPlane (VoronoiCell3D.initBox (-1/2) (1/2) (-1/2) (1/2) (-1/2) (1/2)) 3 0 0).1
        = false ↔
      ∀ v ∈ (VoronoiCell3D.initBox (-1/2) (1/2) (-1/2) (1/2) (-1/2) (1/2)).verts,
        0 < planeSide ⟨3, 0, 0⟩ (Point3D.dot ⟨3, 0, 0⟩ ⟨3, 0, 0⟩ / 2) v) :=
  ⟨(claim_C5 (VoronoiCell3D.initBox (-1/2) (1/2) (-1/2) (1/2) (-1/2) (1/2)) 3 0 0
      (by decide)).2 (by with_unfolding_all decide),
    (claim_C5 (VoronoiCell3D.initBox (-1/2) (1/2) (-1/2) (1/2) (-1/2) (1/2)) 3 0 0
      (by decide)).1⟩

/-! ## Lemmas on the edge set (C9) -/

/-- Membership after one `std::set` insertion. -/
lemma mem_insertEdge (e a : Nat × Nat) (l : List (Nat × Nat)) :
    a ∈ insertEdge e l ↔ a = e ∨ a ∈ l := by
  induction l with
  | nil => simp [insertEdge]
  | cons x xs ih =>
    by_cases h1 : pairLt e x
    · simp only [insertEdge, if_pos h1, List.mem_cons]
    · by_cases h2 : e = x
      · subst h2
        rw [insertEdge, if_neg h1, if_pos rfl]
        simp only [List.mem_cons]
        tauto
      · simp only [insertEdge, if_neg h1, if_neg h2, List.mem_cons, ih]
        tauto

/-- The set order is irreflexive. -/
lemma pairLt_irrefl (p : Nat × Nat) : pairLt p p = false := by
  simp [pairLt]

/-- The set order is transitive. -/
lemma pairLt_trans {p q r : Nat × Nat} (h1 : pairLt p q) (h2 : pairLt q r) :
    pairLt p r := by
  simp only [pairLt, Bool.or_eq_true, Bool.and_eq_true, decide_eq_true_eq] at *
  omega

/-- The set order is total on distinct edges. -/
lemma pairLt_total {p q : Nat × Nat} (hne : p ≠ q) (h : ¬pairLt p q = true) :
    pairLt q p = true := by
  simp only [pairLt, Bool.or_eq_true, Bool.and_eq_true, decide_eq_true_eq] at *
  have : ¬(p.1 = q.1 ∧ p.2 = q.2) := fun hc => hne (Prod.ext hc.1 hc.2)
  omega

/-- Insertion keeps the list strictly sorted in the set order. -/
lemma sorted_insertEdge (e : Nat × Nat) (l : List (Nat × Nat))
    (h : l.Pairwise (fun a b => pairLt a b = true)) :
    (insertEdge e l).Pairwise (fun a b => pairLt a b = true) := by
  induction l with
  | nil => simp [insertEdge]
  | cons x xs ih =>
    rcases h with _ | ⟨hx, hxs⟩
    by_cases h1 : pairLt e x
    · rw [insertEdge, if_pos h1]
      refine List.Pairwise.cons ?_ (List.Pairwise.cons hx hxs)
      intro b hb
      rcases List.mem_cons.mp hb with hb | hb
      · exact hb ▸ h1
      · exact pairLt_trans h1 (hx b hb)
    · by_cases h2 : e = x
      · rw [insertEdge, if_neg h1, if_pos h2]
        exact List.Pairwise.cons hx hxs
      · rw [insertEdge, if_neg h1, if_neg h2]
        refine List.Pairwise.cons ?_ (ih hxs)
        intro b hb
        rcases (mem_insertEdge e b xs).mp hb with hb | hb
        · exact hb ▸ pairLt_total h2 (fun hc => h1 hc)
        · exact hx b hb

/-- Membership after inserting all canonicalized pairs of one face. -/
lemma mem_faceFold (e : Nat × Nat) (pairs : List (Nat × Nat)) (s : List (Nat × Nat)) :
    e ∈ pairs.foldl (fun s2 pr => insertEdge (canonPair pr.1 pr.2) s2) s ↔
      (∃ pr ∈ pairs, canonPair pr.1 pr.2 = e) ∨ e ∈ s := by
  induction pairs generalizing s with
  | nil => simp
  | cons p ps ih =>
    rw [List.foldl_cons, ih]
    simp only [List.mem_cons, mem_insertEdge]
    constructor
    · rintro (⟨pr, hpr, hc⟩ | he | hs)
      · exact Or.inl ⟨pr, Or.inr hpr, hc⟩
      · exact Or.inl ⟨p, Or.inl rfl, he.symm⟩
      · exact Or.inr hs
    · rintro (⟨pr, hpr | hpr, hc⟩ | hs)
      · exact Or.inr (Or.inl (hpr ▸ hc.symm))
      · exact Or.inl ⟨pr, hpr, hc⟩
      · exact Or.inr (Or.inr hs)

/-- Membership in the accumulated edge set over a list of faces. -/
lemma mem_facesFold (e : Nat × Nat) (faces : List (List Nat)) (s : List (Nat × Nat)) :
    e ∈ faces.foldl
        (fun s f => (cyclicPairs f).foldl
          (fun s2 pr => insertEdge (canonPair pr.1 pr.2) s2) s) s ↔
      (∃ f ∈ faces, ∃ pr ∈ cyclicPairs f, canonPair pr.1 pr.2 = e) ∨ e ∈ s := by
  induction faces generalizing s with
  | nil => simp
  | cons f fs ih =>
    rw [List.foldl_cons, ih, mem_faceFold]
    simp only [List.mem_cons]
    constructor
    · rintro (⟨g, hg, pr, hpr, hc⟩ | ⟨pr, hpr, hc⟩ | hs)
      · exact Or.inl ⟨g, Or.inr hg, pr, hpr, hc⟩
      · exact Or.inl ⟨f, Or.inl rfl, pr, hpr, hc⟩
      · exact Or.inr hs
    · rintro (⟨g, hg | hg, pr, hpr, hc⟩ | hs)
      · exact Or.inr (Or.inl ⟨pr, hg ▸ hpr, hc⟩)
      · exact Or.inl ⟨g, hg, pr, hpr, hc⟩
      · exact Or.inr (Or.inr hs)

/-- The inner fold keeps the edge list strictly sorted. -/
lemma sorted_faceFold (pairs : List (Nat × Nat)) (s : List (Nat × Nat))
    (h : s.Pairwise (fun a b => pairLt a b = true)) :
    (pairs.foldl (fun s2 pr => insertEdge (canonPair pr.1 pr.2) s2) s).Pairwise
      (fun a b => pairLt a b = true) := by
  induction pairs generalizing s with
  | nil => exact h
  | cons p ps ih => exact ih _ (sorted_insertEdge _ _ h)

/-- The whole fold keeps the edge list strictly sorted. -/
lemma sorted_facesFold (faces : List (List Nat)) (s : List (Nat × Nat))
    (h : s.Pairwise (fun a b => pairLt a b = true)) :
    (faces.foldl
        (fun s f => (cyclicPairs f).foldl
          (fun s2 pr => insertEdge (canonPair pr.1 pr.2) s2) s) s).Pairwise
      (fun a b => pairLt a b = true) := by
  induction faces generalizing s with
  | nil => exact h
  | cons f fs ih => exact ih _ (sorted_faceFold _ _ h)

/-- C9: for every extracted cell, the edge list is exactly the set of
consecutive vertex-index pairs of the face loops, each pair canonicalized to
`(min, max)` order: an edge is in the list iff some face loop has a consecutive
pair canonicalizing to it, and the list holds no duplicate, so every edge
appears exactly once. -/
theorem claim_C9 (faces : List (List Nat)) :
    (∀ e, e ∈ extractEdges faces ↔
      ∃ f ∈ faces, ∃ pr ∈ cyclicPairs f, canonPair pr.1 pr.2 = e) ∧
    (extractEdges faces).Nodup ∧
    (∀ e ∈ extractEdges faces, e.1 ≤ e.2) := by
  refine ⟨fun e => ?_, ?_, fun e he => ?_⟩
  · rw [extractEdges, mem_facesFold]
    simp
  · have hs := sorted_facesFold faces [] (List.Pairwise.nil)
    rw [extractEdges]
    exact hs.imp (fun hlt => by
      intro heq
      rw [heq, pairLt_irrefl] at hlt
      exact Bool.false_ne_true hlt)
  · rw [extractEdges, mem_facesFold] at he
    rcases he with ⟨f, _, pr, _, hc⟩ | he
    · rw [← hc]
      unfold canonPair
      split <;> omega
    · simp at he

/-! ## Lemmas on the relaxation loop (C4, C10) -/

/-- The index written for loop index `j`. -/
def writeIdx (ctx : VoronoiContext3D) (j : Nat) : Nat :=
  ((particleAt ctx j).1).toNat

/-- Loop step when the cell of the head particle does not compute. -/
lemma relaxLoop_cons_none {ctx : VoronoiContext3D} {j : Nat} {js : List Nat}
    {arr : List Point3D} (h : computeCellAt ctx j = none) :
    relaxLoop ctx (j :: js) arr = relaxLoop ctx js arr := by
  simp only [relaxLoop, h]

/-- Loop step when the head particle's write is in bounds. -/
lemma relaxLoop_cons_set {ctx : VoronoiContext3D} {j : Nat} {js : List Nat}
    {arr : List Point3D} {c : VCell} (h : computeCellAt ctx j = some c)
    (hs : vecSet arr (particleAt ctx j).1
        (Point3D.add (particleAt ctx j).2 (cellCentroid c)) =
      some (arr.set (writeIdx ctx j)
        (Point3D.add (particleAt ctx j).2 (cellCentroid c)))) :
    relaxLoop ctx (j :: js) arr =
      relaxLoop ctx js (arr.set (writeIdx ctx j)
        (Point3D.add (particleAt ctx j).2 (cellCentroid c))) := by
  simp only [relaxLoop, h, hs]

/-- Loop step when the head particle's write is out of bounds. -/
lemma relaxLoop_cons_oob {ctx : VoronoiContext3D} {j : Nat} {js : List Nat}
    {arr : List Point3D} {c : VCell} (h : computeCellAt ctx j = some c)
    (hs : vecSet arr (particleAt ctx j).1
        (Point3D.add (particleAt ctx j).2 (cellCentroid c)) = none) :
    relaxLoop ctx (j :: js) arr = none := by
  simp only [relaxLoop, h, hs]

/-- Entries whose index no remaining particle writes are preserved. -/
lemma relaxLoop_frame (ctx : VoronoiContext3D) (is : List Nat) (arr out : List Point3D)
    (k : Nat) (hne : ∀ j ∈ is, writeIdx ctx j ≠ k)
    (hout : relaxLoop ctx is arr = some out) : out[k]? = arr[k]? := by
  induction is generalizing arr with
  | nil =>
    rw [relaxLoop] at hout
    cases hout
    rfl
  | cons j js ih =>
    cases hc : computeCellAt ctx j with
    | none =>
      rw [relaxLoop_cons_none hc] at hout
      exact ih arr (fun j2 hj2 => hne j2 (List.mem_cons_of_mem j hj2)) hout
    | some c =>
      cases hs : vecSet arr (particleAt ctx j).1
          (Point3D.add (particleAt ctx j).2 (cellCentroid c)) with
      | none => rw [relaxLoop_cons_oob hc hs] at hout; cases hout
      | some arr2 =>
        have hb2 : 0 ≤ (particleAt ctx j).1 ∧ ((particleAt ctx j).1).toNat < arr.length := by
          by_contra hcon
          rw [vecSet, if_neg hcon] at hs
          cases hs
        have harr2 : arr2 = arr.set (writeIdx ctx j)
            (Point3D.add (particleAt ctx j).2 (cellCentroid c)) := by
          rw [vecSet, if_pos hb2] at hs
          cases hs
          rfl
        subst harr2
        rw [relaxLoop_cons_set hc (by rw [vecSet, if_pos hb2]; exact rfl)] at hout
        have h2 := ih _ (fun j2 hj2 => hne j2 (List.mem_cons_of_mem j hj2)) hout
        rw [h2]
        exact List.getElem?_set_ne (hne j (List.mem_cons_self j js))

/-- The relaxation loop succeeds when every remaining particle id is a
non-negative integer whose value is in bounds of the output array, its writes
land at the particles' own ids, and the array length never changes. -/
lemma relaxLoop_spec (ctx : VoronoiContext3D) (is : List Nat) (arr : List Point3D)
    (hb : ∀ j ∈ is, 0 ≤ (particleAt ctx j).1 ∧ writeIdx ctx j < arr.length)
    (hnd : (is.map (writeIdx ctx)).Nodup) :
    ∃ out, relaxLoop ctx is arr = some out ∧ out.length = arr.length ∧
      ∀ j ∈ is, ∀ c, computeCellAt ctx j = some c →
        out[writeIdx ctx j]? =
          some (Point3D.add (particleAt ctx j).2 (cellCentroid c)) := by
  induction is generalizing arr with
  | nil => exact ⟨arr, rfl, rfl, by simp⟩
  | cons j js ih =>
    rw [List.map_cons, List.nodup_cons] at hnd
    cases hc : computeCellAt ctx j with
    | none =>
      obtain ⟨out, hout, hlen, hget⟩ := ih arr
        (fun j2 hj2 => hb j2 (List.mem_cons_of_mem j hj2)) hnd.2
      refine ⟨out, ?_, hlen, ?_⟩
      · rw [relaxLoop, hc]; exact hout
      · intro j2 hj2 c hc2
        rcases List.mem_cons.mp hj2 with rfl | hj2
        · rw [hc] at hc2; cases hc2
        · exact hget j2 hj2 c hc2
    | some c =>
      have hbj := hb j (List.mem_cons_self j js)
      have hset : vecSet arr (particleAt ctx j).1
          (Point3D.add (particleAt ctx j).2 (cellCentroid c)) =
          some (arr.set (writeIdx ctx j)
            (Point3D.add (particleAt ctx j).2 (cellCentroid c))) := by
        rw [vecSet, if_pos ⟨hbj.1, hbj.2⟩]
        rfl
      obtain ⟨out, hout, hlen, hget⟩ := ih
        (arr.set (writeIdx ctx j) (Point3D.add (particleAt ctx j).2 (cellCentroid c)))
        (fun j2 hj2 => by
          rw [List.length_set]
          exact hb j2 (List.mem_cons_of_mem j hj2))
        hnd.2
      refine ⟨out, ?_, by rw [hlen, List.length_set], ?_⟩
      · rw [relaxLoop_cons_set hc hset]; exact hout
      · intro j2 hj2 c2 hc2
        rcases List.mem_cons.mp hj2 with rfl | hj2
        · rw [hc] at hc2
          cases hc2
          have hfr := relaxLoop_frame ctx js _ out (writeIdx ctx j2)
            (fun j3 hj3 heq => hnd.1 (heq ▸ List.mem_map_of_mem (writeIdx ctx) hj3))
            hout
          rw [hfr, List.getElem?_set_self hbj.2]
        · exact hget j2 hj2 c2 hc2

/-- The relaxation loop succeeds (never hits the out-of-bounds branch) whenever
every remaining particle id is a non-negative integer in bounds of the output
array, duplicates allowed. -/
lemma relaxLoop_isSome (ctx : VoronoiContext3D) (is : List Nat) (arr : List Point3D)
    (hb : ∀ j ∈ is, 0 ≤ (particleAt ctx j).1 ∧ writeIdx ctx j < arr.length) :
    ∃ out, relaxLoop ctx is arr = some out ∧ out.length = arr.length := by
  induction is generalizing arr with
  | nil => exact ⟨arr, rfl, rfl⟩
  | cons j js ih =>
    cases hc : computeCellAt ctx j with
    | none =>
      obtain ⟨out, hout, hlen⟩ := ih arr (fun j2 hj2 => hb j2 (List.mem_cons_of_mem j hj2))
      exact ⟨out, by rw [relaxLoop_cons_none hc]; exact hout, hlen⟩
    | some c =>
      have hbj := hb j (List.mem_cons_self j js)
      have hset : vecSet arr (particleAt ctx j).1
          (Point3D.add (particleAt ctx j).2 (cellCentroid c)) =
          some (arr.set (writeIdx ctx j)
            (Point3D.add (particleAt ctx j).2 (cellCentroid c))) := by
        rw [vecSet, if_pos ⟨hbj.1, hbj.2⟩]
        exact rfl
      obtain ⟨out, hout, hlen⟩ := ih
        (arr.set (writeIdx ctx j) (Point3D.add (particleAt ctx j).2 (cellCentroid c)))
        (fun j2 hj2 => by
          rw [List.length_set]
          exact hb j2 (List.mem_cons_of_mem j hj2))
      exact ⟨out, by rw [relaxLoop_cons_set hc hset]; exact hout,
        by rw [hlen, List.length_set]⟩

/-- A container whose particle ids (0 and 5) are not the dense range `0..1`:
its second centroid write indexes slot 5 of a 2-slot array. -/
def badCtx : VoronoiContext3D :=
  ⟨0, 2, 0, 2, 0, 2, [(0, ⟨1, 1, 1⟩), (5, ⟨1, 1, 1⟩)], []⟩

/-- A container with one particle carrying the dense id 0. -/
def denseCtx : VoronoiContext3D := ⟨0, 2, 0, 2, 0, 2, [(0, ⟨1, 1, 1⟩)], []⟩

/-- Counterexample to C4 as stated: in the container `badCtx`, whose particle
ids are 0 and 5, `relaxVoronoi` does not return an array sized to the maximum
id + 1 = 6 — it allocates `total_particles() = 2` slots and the write at id 5 is
out of bounds (undefined behavior in the C++, `none` in the model), so no array
at all is produced. -/
theorem claim_C4_counterexample :
    badCtx.particles.map Prod.fst = [0, 5] ∧
    badCtx.particles.length = 2 ∧
    relaxVoronoi badCtx = none := by
  refine ⟨rfl, rfl, by with_unfolding_all decide⟩

/-- C4 (amended): `relaxVoronoi` sizes its output to the number of particles in
the container (`total_particles()`), not to the maximum id + 1; when the
particle ids are distinct non-negative integers smaller than the particle count
(so that both notions agree), the entry at each particle's own id holds the
centroid of that particle's finished cell. -/
theorem claim_C4 (ctx : VoronoiContext3D)
    (hb : ∀ pr ∈ ctx.particles, 0 ≤ pr.1 ∧ pr.1.toNat < ctx.particles.length)
    (hnd : (ctx.particles.map Prod.fst).Nodup) :
    ∃ out, relaxVoronoi ctx = some out ∧ out.length = ctx.particles.length ∧
      ∀ i < ctx.particles.length, ∀ c, computeCellAt ctx i = some c →
        out[((particleAt ctx i).1).toNat]? =
          some (Point3D.add (particleAt ctx i).2 (cellCentroid c)) := by
  have hb2 : ∀ j ∈ List.range ctx.particles.length,
      0 ≤ (particleAt ctx j).1 ∧
        writeIdx ctx j < (List.replicate ctx.particles.length Point3D.zero).length := by
    intro j hj
    rw [List.length_replicate]
    exact hb (particleAt ctx j) (particleAt_mem (List.mem_range.mp hj))
  have hinj : ∀ i ∈ List.range ctx.particles.length,
      ∀ j ∈ List.range ctx.particles.length, writeIdx ctx i = writeIdx ctx j → i = j := by
    intro i hi j hj heq
    rw [List.mem_range] at hi hj
    have hpi := hb (particleAt ctx i) (particleAt_mem hi)
    have hpj := hb (particleAt ctx j) (particleAt_mem hj)
    have hfst : (particleAt ctx i).1 = (particleAt ctx j).1 := by
      rw [← Int.toNat_of_nonneg hpi.1, ← Int.toNat_of_nonneg hpj.1]
      exact congrArg Int.ofNat heq
    have hmi : i < (ctx.particles.map Prod.fst).length := by
      rw [List.length_map]; exact hi
    have hmj : j < (ctx.particles.map Prod.fst).length := by
      rw [List.length_map]; exact hj
    have hgm : (ctx.particles.map Prod.fst)[i] = (ctx.particles.map Prod.fst)[j] := by
      rw [List.getElem_map, List.getElem_map]
      rw [particleAt, particleAt, List.getD_eq_getElem _ _ hi, List.getD_eq_getElem _ _ hj]
        at hfst
      exact hfst
    exact List.Nodup.getElem_inj_iff hnd |>.mp hgm
  have hnd2 : ((List.range ctx.particles.length).map (writeIdx ctx)).Nodup :=
    List.Nodup.map_on hinj (List.nodup_range ctx.particles.length)
  obtain ⟨out, hout, hlen, hget⟩ :=
    relaxLoop_spec ctx (List.range ctx.particles.length)
      (List.replicate ctx.particles.length Point3D.zero) hb2 hnd2
  refine ⟨out, hout, by rw [hlen, List.length_replicate], ?_⟩
  intro i hi c hc
  exact hget i (List.mem_range.mpr hi) c hc

/-- Witness for C4 (amended): the dense one-particle container produces an
array. -/
theorem claim_C4_witness : (relaxVoronoi denseCtx).isSome = true := by
  obtain ⟨out, hout, -⟩ := claim_C4 denseCtx (by decide) (by decide)
  rw [hout]
  rfl

/-- C10: `relaxVoronoi` allocates its output with exactly one slot per particle
currently in the container and writes each centroid at the raw particle id;
when every inserted particle id is a non-negative integer strictly smaller than
the number of particles, every write is in bounds — the out-of-bounds branch of
the indexing is never taken — and the container `badCtx` (ids 0 and 5 among 2
particles) violates the precondition and reaches an out-of-bounds index. -/
theorem claim_C10 :
    (∀ ctx : VoronoiContext3D,
      (∀ pr ∈ ctx.particles, 0 ≤ pr.1 ∧ pr.1.toNat < ctx.particles.length) →
      ∃ out, relaxVoronoi ctx = some out ∧ out.length = ctx.particles.length) ∧
    (¬ ∀ pr ∈ badCtx.particles, 0 ≤ pr.1 ∧ pr.1.toNat < badCtx.particles.length) ∧
    relaxVoronoi badCtx = none := by
  refine ⟨?_, by decide, by with_unfolding_all decide⟩
  intro ctx hb
  have hb2 : ∀ j ∈ List.range ctx.particles.length,
      0 ≤ (particleAt ctx j).1 ∧
        writeIdx ctx j < (List.replicate ctx.particles.length Point3D.zero).length := by
    intro j hj
    rw [List.length_replicate]
    exact hb (particleAt ctx j) (particleAt_mem (List.mem_range.mp hj))
  obtain ⟨out, hout, hlen⟩ := relaxLoop_isSome ctx (List.range ctx.particles.length)
    (List.replicate ctx.particles.length Point3D.zero) hb2
  exact ⟨out, hout, by rw [hlen, List.length_replicate]⟩

/-- Witness for C10: the dense one-particle container satisfies the
precondition and gets its 1-slot array. -/
theorem claim_C10_witness :
    (∃ out, relaxVoronoi denseCtx = some out ∧
      out.length = denseCtx.particles.length) ∧
    relaxVoronoi badCtx = none :=
  ⟨claim_C10.1 denseCtx (by decide), claim_C10.2.2⟩

/-- With duplicate-free particle ids, equal ids at in-range loop indices force
equal indices. -/
lemma pid_index_inj (ctx : VoronoiContext3D)
    (hnd : (ctx.particles.map Prod.fst).Nodup) {i j : Nat}
    (hi : i < ctx.particles.length) (hj : j < ctx.particles.length)
    (hfst : (particleAt ctx i).1 = (particleAt ctx j).1) : i = j := by
  have hmi : i < (ctx.particles.map Prod.fst).length := by
    rw [List.length_map]; exact hi
  have hmj : j < (ctx.particles.map Prod.fst).length := by
    rw [List.length_map]; exact hj
  have hgm : (ctx.particles.map Prod.fst)[i] = (ctx.particles.map Prod.fst)[j] := by
    rw [List.getElem_map, List.getElem_map]
    rw [particleAt, particleAt, List.getD_eq_getElem _ _ hi, List.getD_eq_getElem _ _ hj]
      at hfst
    exact hfst
  exact List.Nodup.getElem_inj_iff hnd |>.mp hgm

/-- A `[0,1]³` container with a single particle (id 1) and a custom wall that
empties every cell: it proposes the half-space `z ≤ −50`, which no point of the
domain satisfies. -/
def wallEmptiedCtx : VoronoiContext3D :=
  ⟨0, 1, 0, 1, 0, 1, [(1, ⟨1/2, 1/2, 1/2⟩)],
    [Wall.wjs (fun _ => JSVal.obj (some true) (some 0) (some 0) (some 1) (some (-100)))]⟩

/-- Counterexample to C2 as stated: in `wallEmptiedCtx` the registered wall
reduces the only particle's cell to empty, and `getAllCells` returns an empty
list — no degenerate entry with id 1, zero volume and zero vertices is reported
for the particle; `getCellById 1` answers the same sentinel cell that a missing
id gets, so the two cases are indistinguishable. -/
theorem claim_C2_counterexample :
    wallEmptiedCtx.particles.map Prod.fst = [1] ∧
    computeCellAt wallEmptiedCtx 0 = none ∧
    getAllCells wallEmptiedCtx = [] ∧
    getCellById wallEmptiedCtx 1 = VoronoiCell.empty ∧
    getCellById wallEmptiedCtx 999 = VoronoiCell.empty := by
  refine ⟨rfl, ?_, ?_, ?_, ?_⟩ <;> with_unfolding_all decide

/-- C2 (amended): a particle whose cell is emptied by a registered wall is
silently omitted from `getAllCells` — no cell in the output carries its id
(ids assumed duplicate-free) — and `getCellById` for it returns the very
sentinel cell used for an id that was never inserted, so callers can detect the
degenerate case only by the particle's absence and cannot distinguish it from
"particle not found". -/
theorem claim_C2 (ctx : VoronoiContext3D) (i : Nat)
    (hi : i < ctx.particles.length)
    (hnone : computeCellAt ctx i = none)
    (hnd : (ctx.particles.map Prod.fst).Nodup) :
    (∀ cell ∈ getAllCells ctx, cell.id ≠ (particleAt ctx i).1) ∧
    getCellById ctx (particleAt ctx i).1 = VoronoiCell.empty := by
  constructor
  · intro cell hcell heq
    rw [getAllCells] at hcell
    obtain ⟨j, hj, hg⟩ := List.mem_filterMap.mp hcell
    rw [List.mem_range] at hj
    cases hc : computeCellAt ctx j with
    | none => rw [hc] at hg; cases hg
    | some c =>
      rw [hc] at hg
      have hcell2 : cell = extract_cell ctx j c := by
        cases hg
        rfl
      have hid : cell.id = (particleAt ctx j).1 := by rw [hcell2]; rfl
      have hij : j = i := pid_index_inj ctx hnd hj hi (by rw [← hid, heq])
      rw [hij, hnone] at hc
      cases hc
  · rw [getCellById]
    have hnone2 : (List.range ctx.particles.length).findSome?
        (fun j => if (particleAt ctx j).1 = (particleAt ctx i).1 then
          (computeCellAt ctx j).map (extract_cell ctx j) else none) = none := by
      rw [List.findSome?_eq_none_iff]
      intro j hj
      rw [List.mem_range] at hj
      by_cases hpid : (particleAt ctx j).1 = (particleAt ctx i).1
      · rw [if_pos hpid]
        have hij : j = i := pid_index_inj ctx hnd hj hi hpid
        rw [hij, hnone]
        rfl
      · rw [if_neg hpid]
    rw [hnone2]
    rfl

/-- Witness for C2 (amended): applied to `wallEmptiedCtx` and its particle. -/
theorem claim_C2_witness :
    (∀ cell ∈ getAllCells wallEmptiedCtx, cell.id ≠ 1) ∧
    getCellById wallEmptiedCtx 1 = VoronoiCell.empty :=
  claim_C2 wallEmptiedCtx 0 (by decide) (by with_unfolding_all decide) (by decide)

/-- Counterexample to C6 as stated: the malformed response `{cut: true}` —
an object lacking all of the required plane fields `nx, ny, nz, d` — is not
treated as "no cut": the guard of `cut_cell_internal` passes and the code
calls `c.plane` with the four missing fields (each marshalled by `as<double>`
from `undefined`, i.e. NaN), reporting that it cut the cell. -/
theorem claim_C6_counterexample :
    wallJSCutAction (JSVal.obj (some true) none none none none) =
      some (none, none, none, none) ∧
    (cut_cell_internal (JSVal.obj (some true) none none none none)
      (initBoxCell 0 1 0 1 0 1)).1 = true := by
  exact ⟨rfl, rfl⟩

/-- C6 (amended): a `cut_cell` response of `undefined`, `null`, or an object
whose `cut` field is missing or `false` is treated as "no cut": the cell under
computation is left unchanged and no error propagates, isolating such a wall
from the rest of the computation.  (An object with `cut: true` that lacks the
plane fields is not protected — see the counterexample.) -/
theorem claim_C6 (resp : JSVal) (c : VCell)
    (hbenign : resp = JSVal.undef ∨ resp = JSVal.null ∨
      (∃ nx ny nz d, resp = JSVal.obj none nx ny nz d) ∨
      (∃ nx ny nz d, resp = JSVal.obj (some false) nx ny nz d)) :
    cut_cell_internal resp c = (false, c) := by
  rcases hbenign with h | h | ⟨nx, ny, nz, d, h⟩ | ⟨nx, ny, nz, d, h⟩ <;>
    subst h <;> rfl

/-- Witness for C6 (amended): the object `{}` with no fields at all, applied to
a box cell, is a no-op. -/
theorem claim_C6_witness :
    cut_cell_internal (JSVal.obj none none none none none) (initBoxCell 0 1 0 1 0 1) =
      (false, initBoxCell 0 1 0 1 0 1) :=
  claim_C6 (JSVal.obj none none none none none) (initBoxCell 0 1 0 1 0 1)
    (Or.inr (Or.inr (Or.inl ⟨none, none, none, none, rfl⟩)))

end Voro
